import Mathlib

/-!
Verification of the five-three-one set-prescription engine
(`src/lifts.rs`): the data model (`Lift`, `Week`, `WorkoutError`,
`SetGroup`), the weight scaler `scale` (which in the source multiplies an
`i16` weight by an `f32` fraction, rounds half away from zero, and casts
back to `i16`), and the two set generators `generate_primary_sets` and
`generate_assistance_sets`.

Machine floats are embedded exactly: an IEEE-754 binary32 value is
represented by the rational it denotes, and `toF32` is rounding of a
rational to the nearest binary32 value (24-bit significand,
round-to-nearest, ties to even).  Exponent overflow/underflow of binary32
is not modelled; every value arising from an `i16` weight and a fractional
multiplier is a normal float, far inside the modelled range.
-/

set_option maxRecDepth 4000

namespace FiveThreeOne

/-- The four cycle weeks (`enum Week` in the source). -/
inductive Week where
  | week1
  | week2
  | week3
  | week4
  deriving DecidableEq

/-- The fifteen lifts (`enum Lift` in the source). -/
inductive Lift where
  | squat
  | benchPress
  | deadlift
  | overheadPress
  | frontSquat
  | overheadSquat
  | bulgarianSplitSquat
  | goodMorning
  | straightLegDeadlift
  | romanianDeadlift
  | rackDeadlift
  | powerClean
  | powerSnatch
  | closeGripBenchPress
  | inclinePress
  deriving DecidableEq

/-- `enum WorkoutError` in the source: a config error with a message, or a
missing training max identifying the offending lift. -/
inductive WorkoutError where
  | config (message : String)
  | missingTrainingMax (lift : Lift)
  deriving DecidableEq

/-- `impl fmt::Display for Lift`: the canonical lowercase display name. -/
def liftName : Lift → String
  | .squat => "squat"
  | .benchPress => "bench press"
  | .deadlift => "deadlift"
  | .overheadPress => "overhead press"
  | .frontSquat => "front squat"
  | .overheadSquat => "overhead squat"
  | .powerClean => "power clean"
  | .powerSnatch => "power snatch"
  | .bulgarianSplitSquat => "bulgarian split squat"
  | .goodMorning => "good morning"
  | .straightLegDeadlift => "straight leg deadlift"
  | .romanianDeadlift => "romanian deadlift"
  | .rackDeadlift => "rack deadlift"
  | .closeGripBenchPress => "close grip bench press"
  | .inclinePress => "incline press"

/-- `struct SetGroup`: a block of identical sets for a lift.  The source
fields `weight: i16`, `sets: i8`, `reps: i8` are embedded as integers. -/
structure SetGroup where
  lift : Lift
  weight : ℤ
  sets : ℤ
  reps : ℤ
  amrap : Bool

/-- `impl fmt::Display for SetGroup`: `"<lift> <weight> [<sets>]x<reps>[+]"`,
with the set count emitted only when `sets > 1` and a trailing `+`
exactly when `amrap` is set. -/
def SetGroup.fmt (g : SetGroup) : String :=
  let s := liftName g.lift ++ " " ++ toString g.weight ++ " "
  let s := if g.sets > 1 then s ++ toString g.sets else s
  let s := s ++ "x"
  let s := s ++ toString g.reps
  if g.amrap then s ++ "+" else s

/-! ### Exact model of IEEE-754 binary32 rounding -/

/-- Round a rational to the nearest integer, ties to even (the IEEE-754
default rounding used for every `f32` operation in the source). -/
def rne (q : ℚ) : ℤ :=
  if q - ⌊q⌋ < 1/2 then ⌊q⌋
  else if (1/2 : ℚ) < q - ⌊q⌋ then ⌊q⌋ + 1
  else if 2 ∣ ⌊q⌋ then ⌊q⌋ else ⌊q⌋ + 1

/-- Fuel-driven binary search downward: for `1 ≤ q < 2^fuel` this computes
the exponent `e` with `2^e ≤ q < 2^(e+1)`. -/
def fexpDown : ℕ → ℚ → ℕ
  | 0, _ => 0
  | f + 1, q => if q < 2 then 0 else fexpDown f (q / 2) + 1

/-- Fuel-driven binary search upward: for `2^(-fuel) ≤ q < 1` this computes
the `u ≥ 1` with `2^(-u) ≤ q < 2^(-u+1)`. -/
def fexpUp : ℕ → ℚ → ℕ
  | 0, _ => 0
  | f + 1, q => if 1 ≤ q then 0 else fexpUp f (2 * q) + 1

/-- Binary exponent of a positive rational (`⌊log₂ q⌋`), correct for
`2^(-64) ≤ q < 2^64`, which covers every value in this development. -/
def flog2 (q : ℚ) : ℤ :=
  if 1 ≤ q then (fexpDown 64 q : ℤ) else -(fexpUp 64 q : ℤ)

/-- `2^z` as a rational, computably. -/
def pow2 (z : ℤ) : ℚ :=
  if 0 ≤ z then ((2 ^ z.toNat : ℕ) : ℚ) else 1 / ((2 ^ (-z).toNat : ℕ) : ℚ)

/-- Round a positive rational to the nearest binary32 value: scale into the
24-bit significand window, round to nearest (ties to even), scale back. -/
def toF32pos (q : ℚ) : ℚ :=
  (rne (q * pow2 (23 - flog2 q)) : ℚ) * pow2 (flog2 q - 23)

/-- Round a rational to the nearest binary32 value (sign-symmetric). -/
def toF32 (q : ℚ) : ℚ :=
  if q = 0 then 0
  else if 0 < q then toF32pos q
  else -toF32pos (-q)

/-- Rust `f32::round`: nearest integer, halves away from zero. -/
def rha (q : ℚ) : ℤ :=
  if 0 ≤ q then ⌊q + 1/2⌋ else -⌊-q + 1/2⌋

/-- Rust's saturating float-to-`i16` cast (`as i16`), applied to an already
integral rounded value. -/
def i16sat (n : ℤ) : ℤ := max (-32768) (min 32767 n)

/-- `fn scale(weight: i16, scale: f32) -> i16`: the weight is converted to
`f32` (exact for `i16`, modelled by `toF32`), multiplied by the fraction in
`f32` (the product rounds to the nearest binary32 value), rounded half away
from zero by `f32::round`, and cast back to `i16`. -/
def scale (weight : ℤ) (s : ℚ) : ℤ :=
  i16sat (rha (toF32 (toF32 (weight : ℚ) * s)))

/-! ### The two set generators -/

/-- `fn generate_primary_sets`: warm-up sets (none in week 4, the 60%
warm-up suppressed in week 1) followed by the week's three working sets. -/
def generate_primary_sets (lift : Lift) (week : Week)
    (training_maxes : Lift → Option ℤ) : Except WorkoutError (List String) :=
  match training_maxes lift with
  | none => .error (.missingTrainingMax lift)
  | some training_max =>
    let make_set_str : ℚ → ℤ → ℤ → Bool → String := fun scalar sets reps amrap =>
      SetGroup.fmt ⟨lift, scale training_max scalar, sets, reps, amrap⟩
    let warmups : List String :=
      if week = .week4 then []
      else
        [make_set_str (toF32 0.4) 1 5 false, make_set_str (toF32 0.5) 1 5 false]
          ++ (if week = .week1 then [] else [make_set_str (toF32 0.6) 1 3 false])
    let working : List String :=
      match week with
      | .week1 => [make_set_str (toF32 0.65) 1 5 false,
                   make_set_str (toF32 0.75) 1 5 false,
                   make_set_str (toF32 0.85) 1 5 true]
      | .week2 => [make_set_str (toF32 0.7) 1 3 false,
                   make_set_str (toF32 0.8) 1 3 false,
                   make_set_str (toF32 0.9) 1 3 true]
      | .week3 => [make_set_str (toF32 0.75) 1 5 false,
                   make_set_str (toF32 0.85) 1 3 false,
                   make_set_str (toF32 0.95) 1 1 true]
      | .week4 => [make_set_str (toF32 0.4) 1 5 false,
                   make_set_str (toF32 0.5) 1 5 false,
                   make_set_str (toF32 0.6) 1 5 false]
    .ok (warmups ++ working)

/-- The big-assistance mapping inside `generate_assistance_sets`:
`none` for a lift that is not one of the four primary lifts. -/
def big_assistance_lift : Lift → Option Lift
  | .squat => some .powerClean
  | .deadlift => some .frontSquat
  | .benchPress => some .inclinePress
  | .overheadPress => some .closeGripBenchPress
  | _ => none

/-- `fn generate_assistance_sets`: three big-assistance sets for the lift
mapped from the primary (scaled against the assistance lift's own training
max), then the small-accessory line(s), one of which may be chosen by a
coin flip drawn from the caller-supplied random source.  The random source
is modelled generically as a state `rng : S` with a step function
`step : S → Bool × S` standing for `rng.gen::<bool>()`. -/
def generate_assistance_sets {S : Type} (primary_lift : Lift) (week : Week)
    (training_maxes : Lift → Option ℤ) (step : S → Bool × S) (rng : S) :
    Except WorkoutError (List String) :=
  let make_set_str : Lift → ℚ → ℤ → ℤ → Except WorkoutError String :=
    fun lift scalar sets reps =>
      match training_maxes lift with
      | none => .error (.missingTrainingMax lift)
      | some training_max =>
        .ok (SetGroup.fmt ⟨lift, scale training_max scalar, sets, reps, false⟩)
  match big_assistance_lift primary_lift with
  | none => .error (.config ("Unsupported primary lift " ++ liftName primary_lift))
  | some bigLift => do
    let bigSets : List String ←
      match bigLift, week with
      | .powerClean, .week4 => do
        let a ← make_set_str bigLift (toF32 0.5) 1 3
        let b ← make_set_str bigLift (toF32 0.6) 1 3
        let c ← make_set_str bigLift (toF32 0.7) 1 3
        pure [a, b, c]
      | .powerClean, _ => do
        let a ← make_set_str bigLift (toF32 0.65) 1 3
        let b ← make_set_str bigLift (toF32 0.75) 1 3
        let c ← make_set_str bigLift (toF32 0.85) 1 3
        pure [a, b, c]
      | _, .week1 => do
        let a ← make_set_str bigLift (toF32 0.5) 1 10
        let b ← make_set_str bigLift (toF32 0.6) 1 10
        let c ← make_set_str bigLift (toF32 0.7) 1 10
        pure [a, b, c]
      | _, .week2 => do
        let a ← make_set_str bigLift (toF32 0.6) 1 8
        let b ← make_set_str bigLift (toF32 0.7) 1 8
        let c ← make_set_str bigLift (toF32 0.8) 1 6
        pure [a, b, c]
      | _, .week3 => do
        let a ← make_set_str bigLift (toF32 0.65) 1 5
        let b ← make_set_str bigLift (toF32 0.75) 1 5
        let c ← make_set_str bigLift (toF32 0.85) 1 5
        pure [a, b, c]
      | _, .week4 => do
        let a ← make_set_str bigLift (toF32 0.4) 1 5
        let b ← make_set_str bigLift (toF32 0.5) 1 5
        let c ← make_set_str bigLift (toF32 0.6) 1 5
        pure [a, b, c]
    let smallSets : List String ←
      match primary_lift with
      | .squat =>
        let coin := (step rng).1
        pure ["RDLs, up to 225, 3x10",
              if coin then "chin-ups, 2x10" else "pull-ups, 2x10"]
      | .deadlift =>
        pure ["overhead squat, 3x10"]
      | .benchPress =>
        let coin := (step rng).1
        pure [if coin then "chin-ups, 3x10" else "pull-ups, 3x10"]
      | .overheadPress =>
        let coin := (step rng).1
        pure [if coin then "barbell 21s x3" else "Kroc row, 3x20"]
      | _ => .error (.config ("Unsupported primary lift " ++ liftName primary_lift))
    pure (bigSets ++ smallSets)

/-- A concrete random source used in witnesses: a finite stream of coin
results, empty stream yielding `false`. -/
def coinStep : List Bool → Bool × List Bool
  | [] => (false, [])
  | b :: rest => (b, rest)

/-- Whether a formatted set string carries the AMRAP marker: its final
character is `+`. -/
def endsWithPlus (s : String) : Bool := s.data.getLast? == some '+'

/-! ### Properties of the binary32 rounding model -/

theorem pow2_eq (z : ℤ) : pow2 z = (2 : ℚ) ^ z := by
  unfold pow2
  split
  case isTrue h =>
    push_cast
    rw [← zpow_natCast (2 : ℚ) z.toNat, Int.toNat_of_nonneg h]
  case isFalse h =>
    push_cast
    rw [← zpow_natCast (2 : ℚ) (-z).toNat, Int.toNat_of_nonneg (by omega),
      one_div, ← zpow_neg, neg_neg]

theorem pow2_pos (z : ℤ) : 0 < pow2 z := by
  rw [pow2_eq]; exact zpow_pos two_pos z

theorem pow2_mono {y z : ℤ} (h : y ≤ z) : pow2 y ≤ pow2 z := by
  rw [pow2_eq, pow2_eq]; exact zpow_le_zpow_right₀ one_le_two h

theorem pow2_natCast (n : ℕ) : pow2 (n : ℤ) = (2 : ℚ) ^ n := by
  rw [pow2_eq, zpow_natCast]

theorem pow2_add (y z : ℤ) : pow2 (y + z) = pow2 y * pow2 z := by
  rw [pow2_eq, pow2_eq, pow2_eq, zpow_add₀ (two_ne_zero)]

theorem floor_le_rne (q : ℚ) : ⌊q⌋ ≤ rne q := by
  unfold rne
  split_ifs <;> omega

theorem rne_le_floor_add_one (q : ℚ) : rne q ≤ ⌊q⌋ + 1 := by
  unfold rne
  split_ifs <;> omega

theorem rne_mono {q r : ℚ} (h : q ≤ r) : rne q ≤ rne r := by
  rcases lt_or_eq_of_le (Int.floor_le_floor h) with hf | hf
  · calc rne q ≤ ⌊q⌋ + 1 := rne_le_floor_add_one q
    _ ≤ ⌊r⌋ := by omega
    _ ≤ rne r := floor_le_rne r
  · unfold rne
    rw [hf]
    have hfr : q - (⌊r⌋ : ℚ) ≤ r - (⌊r⌋ : ℚ) := by linarith
    split_ifs <;> first | omega | linarith

theorem rne_nonneg {q : ℚ} (h : 0 ≤ q) : 0 ≤ rne q := by
  have := floor_le_rne q
  have := Int.floor_nonneg.2 h
  omega

theorem fexpDown_le (f : ℕ) (q : ℚ) : fexpDown f q ≤ f := by
  induction f generalizing q with
  | zero => simp [fexpDown]
  | succ f ih =>
    unfold fexpDown
    split
    · omega
    · have := ih (q / 2); omega

theorem fexpDown_lower (f : ℕ) (q : ℚ) (hq : 1 ≤ q) :
    (2 : ℚ) ^ fexpDown f q ≤ q := by
  induction f generalizing q with
  | zero => simpa [fexpDown] using hq
  | succ f ih =>
    unfold fexpDown
    split
    case isTrue => simpa using hq
    case isFalse h =>
      have h2 : (2 : ℚ) ≤ q := not_lt.1 h
      have ih2 := ih (q / 2) (by linarith)
      rw [pow_succ]
      nlinarith

theorem fexpDown_upper (f : ℕ) (q : ℚ) (hlt : fexpDown f q < f) :
    q < (2 : ℚ) ^ (fexpDown f q + 1) := by
  induction f generalizing q with
  | zero => omega
  | succ f ih =>
    revert hlt
    unfold fexpDown
    split
    case isTrue h => intro _; simpa using h
    case isFalse h =>
      intro hlt
      have ih2 := ih (q / 2) (by omega)
      have hq2 : q < (2 : ℚ) ^ (fexpDown f (q / 2) + 1) * 2 := by linarith
      calc q < (2 : ℚ) ^ (fexpDown f (q / 2) + 1) * 2 := hq2
      _ = (2 : ℚ) ^ (fexpDown f (q / 2) + 1 + 1) := (pow_succ 2 (fexpDown f (q / 2) + 1)).symm

theorem fexpDown_mono (f : ℕ) {q r : ℚ} (h : q ≤ r) :
    fexpDown f q ≤ fexpDown f r := by
  induction f generalizing q r with
  | zero => simp [fexpDown]
  | succ f ih =>
    unfold fexpDown
    split
    case isTrue hq =>
      split
      · omega
      · omega
    case isFalse hq =>
      have hr : ¬ r < 2 := fun hr => hq (lt_of_le_of_lt h hr)
      rw [if_neg hr]
      have := ih (show q / 2 ≤ r / 2 by linarith)
      omega

theorem fexpUp_le (f : ℕ) (q : ℚ) : fexpUp f q ≤ f := by
  induction f generalizing q with
  | zero => simp [fexpUp]
  | succ f ih =>
    unfold fexpUp
    split
    · omega
    · have := ih (2 * q); omega

theorem fexpUp_lower (f : ℕ) (q : ℚ) (hlt : fexpUp f q < f) :
    1 ≤ (2 : ℚ) ^ fexpUp f q * q := by
  induction f generalizing q with
  | zero => omega
  | succ f ih =>
    revert hlt
    unfold fexpUp
    split
    case isTrue h => intro _; simpa using h
    case isFalse h =>
      intro hlt
      have ih2 := ih (2 * q) (by omega)
      rw [pow_succ]
      linarith [ih2]

theorem fexpUp_upper (f : ℕ) (q : ℚ) (hpos : 1 ≤ fexpUp f q) :
    (2 : ℚ) ^ fexpUp f q * q < 2 := by
  induction f generalizing q with
  | zero => simp [fexpUp] at hpos
  | succ f ih =>
    revert hpos
    unfold fexpUp
    split
    case isTrue h => omega
    case isFalse h =>
      intro _
      rcases Nat.eq_zero_or_pos (fexpUp f (2 * q)) with h0 | h1
      · rw [h0, pow_succ]
        have : q < 1 := not_le.1 h
        simpa using by linarith
      · have := ih (2 * q) h1
        rw [pow_succ]
        linarith

theorem fexpUp_anti (f : ℕ) {q r : ℚ} (h : q ≤ r) :
    fexpUp f r ≤ fexpUp f q := by
  induction f generalizing q r with
  | zero => simp [fexpUp]
  | succ f ih =>
    unfold fexpUp
    split
    case isTrue hr => exact Nat.zero_le _
    case isFalse hr =>
      have hq : ¬ 1 ≤ q := fun hq1 => hr (le_trans hq1 h)
      rw [if_neg hq]
      have := ih (by linarith : 2 * q ≤ 2 * r)
      omega

theorem fexpUp_pos (f : ℕ) (q : ℚ) (hq : ¬ 1 ≤ q) (hf : 0 < f) :
    1 ≤ fexpUp f q := by
  cases f with
  | zero => omega
  | succ f => unfold fexpUp; rw [if_neg hq]; omega

theorem flog2_le (q : ℚ) : flog2 q ≤ 64 := by
  unfold flog2
  split
  · have := fexpDown_le 64 q; omega
  · have := fexpUp_le 64 q; omega

theorem neg64_le_flog2 (q : ℚ) : -64 ≤ flog2 q := by
  unfold flog2
  split
  · omega
  · have := fexpUp_le 64 q; omega

theorem flog2_mono {q r : ℚ} (h : q ≤ r) : flog2 q ≤ flog2 r := by
  unfold flog2
  split
  case isTrue hq =>
    rw [if_pos (le_trans hq h)]
    have := fexpDown_mono 64 h
    omega
  case isFalse hq =>
    split
    case isTrue => omega
    case isFalse hr =>
      have := fexpUp_anti 64 h
      omega

theorem flog2_lower {q : ℚ} (hq : 0 < q) (hgt : -64 < flog2 q) :
    pow2 (flog2 q) ≤ q := by
  unfold flog2 at *
  split at hgt
  case isTrue h1 =>
    rw [if_pos h1, pow2_natCast]
    exact fexpDown_lower 64 q h1
  case isFalse h1 =>
    rw [if_neg h1]
    have hup : fexpUp 64 q < 64 := by omega
    have hlow := fexpUp_lower 64 q hup
    rw [pow2_eq, zpow_neg, zpow_natCast]
    rw [inv_le_iff_one_le_mul₀' (by positivity)]
    linarith

theorem flog2_upper {q : ℚ} (hq : 0 < q) (hlt : flog2 q < 64) :
    q < pow2 (flog2 q + 1) := by
  unfold flog2 at *
  split at hlt
  case isTrue h1 =>
    rw [if_pos h1]
    have hdown : fexpDown 64 q < 64 := by omega
    have := fexpDown_upper 64 q hdown
    rw [pow2_eq]
    rw [show ((fexpDown 64 q : ℤ) + 1) = ((fexpDown 64 q + 1 : ℕ) : ℤ) by push_cast; ring,
      zpow_natCast]
    exact this
  case isFalse h1 =>
    rw [if_neg h1]
    have hpos := fexpUp_pos 64 q h1 (by omega)
    have hupp := fexpUp_upper 64 q hpos
    rw [pow2_eq]
    have h2 : (0 : ℚ) < 2 ^ fexpUp 64 q := by positivity
    rw [show (-(fexpUp 64 q : ℤ) + 1) = 1 - (fexpUp 64 q : ℤ) by ring]
    rw [zpow_sub₀ two_ne_zero, zpow_one, zpow_natCast]
    rw [lt_div_iff₀ h2]
    linarith

theorem toF32pos_nonneg {q : ℚ} (h : 0 ≤ q) : 0 ≤ toF32pos q := by
  unfold toF32pos
  have h1 : (0 : ℚ) ≤ (rne (q * pow2 (23 - flog2 q)) : ℚ) := by
    exact_mod_cast rne_nonneg (mul_nonneg h (le_of_lt (pow2_pos _)))
  exact mul_nonneg h1 (le_of_lt (pow2_pos _))

theorem toF32pos_le_pow2 {q : ℚ} (hq : 0 < q) (hlt : flog2 q < 64) :
    toF32pos q ≤ pow2 (flog2 q + 1) := by
  have hup := flog2_upper hq hlt
  have hm : q * pow2 (23 - flog2 q) < pow2 24 := by
    calc q * pow2 (23 - flog2 q) < pow2 (flog2 q + 1) * pow2 (23 - flog2 q) :=
          mul_lt_mul_of_pos_right hup (pow2_pos _)
    _ = pow2 (flog2 q + 1 + (23 - flog2 q)) := (pow2_add _ _).symm
    _ = pow2 24 := by ring_nf
  have hm24 : q * pow2 (23 - flog2 q) < ((2 ^ 24 : ℤ) : ℚ) := by
    have : pow2 24 = ((2 ^ 24 : ℤ) : ℚ) := by
      rw [show (24 : ℤ) = ((24 : ℕ) : ℤ) by norm_num, pow2_natCast]; push_cast; ring
    linarith [hm, this.le]
  have hfl : ⌊q * pow2 (23 - flog2 q)⌋ < (2 ^ 24 : ℤ) := Int.floor_lt.2 hm24
  have hrne : rne (q * pow2 (23 - flog2 q)) ≤ (2 ^ 24 : ℤ) := by
    have := rne_le_floor_add_one (q * pow2 (23 - flog2 q))
    omega
  have hrneQ : ((rne (q * pow2 (23 - flog2 q)) : ℤ) : ℚ) ≤ pow2 24 := by
    have h24 : pow2 24 = ((2 ^ 24 : ℤ) : ℚ) := by
      rw [show (24 : ℤ) = ((24 : ℕ) : ℤ) by norm_num, pow2_natCast]; push_cast; ring
    rw [h24]
    exact_mod_cast hrne
  unfold toF32pos
  calc (rne (q * pow2 (23 - flog2 q)) : ℚ) * pow2 (flog2 q - 23)
      ≤ pow2 24 * pow2 (flog2 q - 23) :=
        mul_le_mul_of_nonneg_right hrneQ (le_of_lt (pow2_pos _))
    _ = pow2 (24 + (flog2 q - 23)) := (pow2_add _ _).symm
    _ = pow2 (flog2 q + 1) := by ring_nf

theorem pow2_le_toF32pos {q : ℚ} (hq : 0 < q) (hgt : -64 < flog2 q) :
    pow2 (flog2 q) ≤ toF32pos q := by
  have hlow := flog2_lower hq hgt
  have hm : pow2 23 ≤ q * pow2 (23 - flog2 q) := by
    calc pow2 23 = pow2 (flog2 q + (23 - flog2 q)) := by ring_nf
    _ = pow2 (flog2 q) * pow2 (23 - flog2 q) := pow2_add _ _
    _ ≤ q * pow2 (23 - flog2 q) :=
        mul_le_mul_of_nonneg_right hlow (le_of_lt (pow2_pos _))
  have hm23 : ((2 ^ 23 : ℤ) : ℚ) ≤ q * pow2 (23 - flog2 q) := by
    have : pow2 23 = ((2 ^ 23 : ℤ) : ℚ) := by
      rw [show (23 : ℤ) = ((23 : ℕ) : ℤ) by norm_num, pow2_natCast]; push_cast; ring
    linarith [this.ge]
  have hfl : (2 ^ 23 : ℤ) ≤ ⌊q * pow2 (23 - flog2 q)⌋ := Int.le_floor.2 hm23
  have hrne : (2 ^ 23 : ℤ) ≤ rne (q * pow2 (23 - flog2 q)) := by
    have := floor_le_rne (q * pow2 (23 - flog2 q))
    omega
  have hrneQ : pow2 23 ≤ ((rne (q * pow2 (23 - flog2 q)) : ℤ) : ℚ) := by
    have h23 : pow2 23 = ((2 ^ 23 : ℤ) : ℚ) := by
      rw [show (23 : ℤ) = ((23 : ℕ) : ℤ) by norm_num, pow2_natCast]; push_cast; ring
    rw [h23]
    exact_mod_cast hrne
  unfold toF32pos
  calc pow2 (flog2 q) = pow2 (23 + (flog2 q - 23)) := by ring_nf
    _ = pow2 23 * pow2 (flog2 q - 23) := pow2_add _ _
    _ ≤ (rne (q * pow2 (23 - flog2 q)) : ℚ) * pow2 (flog2 q - 23) :=
        mul_le_mul_of_nonneg_right hrneQ (le_of_lt (pow2_pos _))

theorem toF32pos_mono {q r : ℚ} (hq : 0 < q) (h : q ≤ r) :
    toF32pos q ≤ toF32pos r := by
  have hr : 0 < r := lt_of_lt_of_le hq h
  have he : flog2 q ≤ flog2 r := flog2_mono h
  rcases eq_or_lt_of_le he with heq | hlt
  · unfold toF32pos
    rw [heq]
    have hm : q * pow2 (23 - flog2 r) ≤ r * pow2 (23 - flog2 r) :=
      mul_le_mul_of_nonneg_right h (le_of_lt (pow2_pos _))
    have hc : ((rne (q * pow2 (23 - flog2 r)) : ℤ) : ℚ)
        ≤ ((rne (r * pow2 (23 - flog2 r)) : ℤ) : ℚ) := by
      exact_mod_cast rne_mono hm
    exact mul_le_mul_of_nonneg_right hc (le_of_lt (pow2_pos _))
  · calc toF32pos q ≤ pow2 (flog2 q + 1) :=
        toF32pos_le_pow2 hq (by have := flog2_le r; omega)
    _ ≤ pow2 (flog2 r) := pow2_mono (by omega)
    _ ≤ toF32pos r := pow2_le_toF32pos hr (by have := neg64_le_flog2 q; omega)

theorem toF32_of_pos {q : ℚ} (h : 0 < q) : toF32 q = toF32pos q := by
  unfold toF32; rw [if_neg (ne_of_gt h), if_pos h]

theorem toF32_zero : toF32 0 = 0 := by
  unfold toF32; rw [if_pos rfl]

theorem toF32_of_neg {q : ℚ} (h : q < 0) : toF32 q = -toF32pos (-q) := by
  unfold toF32; rw [if_neg (ne_of_lt h), if_neg (not_lt.2 (le_of_lt h))]

theorem toF32_nonneg {q : ℚ} (h : 0 ≤ q) : 0 ≤ toF32 q := by
  rcases eq_or_lt_of_le h with h0 | hpos
  · rw [← h0, toF32_zero]
  · rw [toF32_of_pos hpos]
    exact toF32pos_nonneg (le_of_lt hpos)

theorem toF32_mono {q r : ℚ} (h : q ≤ r) : toF32 q ≤ toF32 r := by
  rcases lt_trichotomy q 0 with hq | hq | hq
  · rcases lt_trichotomy r 0 with hr | hr | hr
    · rw [toF32_of_neg hq, toF32_of_neg hr]
      exact neg_le_neg (toF32pos_mono (by linarith) (by linarith))
    · rw [toF32_of_neg hq, hr, toF32_zero]
      simpa using toF32pos_nonneg (by linarith : (0 : ℚ) ≤ -q)
    · rw [toF32_of_neg hq, toF32_of_pos hr]
      have h1 : (0 : ℚ) ≤ toF32pos (-q) := toF32pos_nonneg (by linarith)
      have h2 : (0 : ℚ) ≤ toF32pos r := toF32pos_nonneg (le_of_lt hr)
      linarith
  · subst hq
    rw [toF32_zero]
    exact toF32_nonneg h
  · rw [toF32_of_pos hq, toF32_of_pos (lt_of_lt_of_le hq h)]
    exact toF32pos_mono hq h

theorem rha_mono {q r : ℚ} (h : q ≤ r) : rha q ≤ rha r := by
  unfold rha
  split_ifs with hq hr hr
  · exact Int.floor_le_floor (by linarith)
  · exact absurd (le_trans hq h) hr
  · have h1 : (0 : ℤ) ≤ ⌊-q + 1/2⌋ := Int.floor_nonneg.2 (by linarith)
    have h2 : (0 : ℤ) ≤ ⌊r + 1/2⌋ := Int.floor_nonneg.2 (by linarith)
    omega
  · exact neg_le_neg (Int.floor_le_floor (by linarith))

theorem i16sat_mono {m n : ℤ} (h : m ≤ n) : i16sat m ≤ i16sat n := by
  unfold i16sat
  exact max_le_max (le_refl _) (min_le_min (le_refl _) h)

/-- Monotonicity of `scale` in the fraction, for nonnegative weights:
every stage of the pipeline (conversion of the weight to `f32`, the `f32`
product, `f32::round`, the saturating cast) is monotone. -/
theorem scale_mono {w : ℤ} {f1 f2 : ℚ} (hw : 0 ≤ w) (h : f1 ≤ f2) :
    scale w f1 ≤ scale w f2 := by
  unfold scale
  apply i16sat_mono
  apply rha_mono
  apply toF32_mono
  exact mul_le_mul_of_nonneg_left h (toF32_nonneg (by exact_mod_cast hw))

/-! ### String helpers for the AMRAP marker -/

theorem endsWithPlus_append (a b : String) (hne : b.data ≠ []) :
    endsWithPlus (a ++ b) = endsWithPlus b := by
  unfold endsWithPlus
  rw [String.data_append, List.getLast?_append_of_ne_nil _ hne]

/-- The formatted string of a set group ends in `+` exactly when the group
is AMRAP-flagged, provided the reps render as a nonempty string not ending
in `+` (true of every numeral). -/
theorem endsWithPlus_fmt (g : SetGroup)
    (hne : (toString g.reps).data ≠ [])
    (hnp : endsWithPlus (toString g.reps) = false) :
    endsWithPlus (SetGroup.fmt g) = g.amrap := by
  obtain ⟨l, w, s, r, a⟩ := g
  cases a
  case false =>
    unfold SetGroup.fmt
    dsimp only
    rw [if_neg (by simp)]
    rw [endsWithPlus_append _ _ hne]
    exact hnp
  case true =>
    unfold SetGroup.fmt
    dsimp only
    rw [if_pos rfl]
    unfold endsWithPlus
    rw [String.data_append, List.getLast?_append_of_ne_nil _ (by decide)]
    rfl

/-! ### Claim theorems -/

/-- C1: for primary lift squat, week 1, and a training-max table mapping
squat to 325, `generate_primary_sets` returns exactly the five strings
`"squat 130 x5"`, `"squat 163 x5"`, `"squat 211 x5"`, `"squat 244 x5"`,
`"squat 276 x5+"`: warm-ups at 40% and 50% (the 60% warm-up suppressed in
week 1) then working sets at 65%, 75%, 85% with the last AMRAP-flagged. -/
theorem claim1_squat_week1_example (tm : Lift → Option ℤ)
    (h : tm Lift.squat = some 325) :
    generate_primary_sets Lift.squat Week.week1 tm =
      Except.ok ["squat 130 x5", "squat 163 x5", "squat 211 x5",
        "squat 244 x5", "squat 276 x5+"] := by
  unfold generate_primary_sets
  rw [h]
  with_unfolding_all rfl

/-- Witness for C1 at the singleton table mapping squat to 325. -/
theorem claim1_witness :
    generate_primary_sets Lift.squat Week.week1
      (fun l => if l = Lift.squat then some 325 else none) =
      Except.ok ["squat 130 x5", "squat 163 x5", "squat 211 x5",
        "squat 244 x5", "squat 276 x5+"] :=
  claim1_squat_week1_example _ rfl

theorem endsWithPlus_fmt_reps5 (l : Lift) (w s : ℤ) (a : Bool) :
    endsWithPlus (SetGroup.fmt ⟨l, w, s, 5, a⟩) = a :=
  endsWithPlus_fmt _ ((by decide : (toString (5 : ℤ)).data ≠ []))
    ((by decide : endsWithPlus (toString (5 : ℤ)) = false))

theorem endsWithPlus_fmt_reps3 (l : Lift) (w s : ℤ) (a : Bool) :
    endsWithPlus (SetGroup.fmt ⟨l, w, s, 3, a⟩) = a :=
  endsWithPlus_fmt _ ((by decide : (toString (3 : ℤ)).data ≠ []))
    ((by decide : endsWithPlus (toString (3 : ℤ)) = false))

theorem endsWithPlus_fmt_reps1 (l : Lift) (w s : ℤ) (a : Bool) :
    endsWithPlus (SetGroup.fmt ⟨l, w, s, 1, a⟩) = a :=
  endsWithPlus_fmt _ ((by decide : (toString (1 : ℤ)).data ≠ []))
    ((by decide : endsWithPlus (toString (1 : ℤ)) = false))

/-- C3: for every lift and week with a training max present,
`generate_primary_sets` returns three working-set entries preceded by
2 warm-up entries in week 1, 3 in weeks 2 and 3, and 0 in week 4 (total
lengths 5, 6, 6, 3). -/
theorem claim3_primary_set_counts (lift : Lift) (week : Week)
    (tm : Lift → Option ℤ) (t : ℤ) (h : tm lift = some t) :
    ∃ warmups working, generate_primary_sets lift week tm =
        Except.ok (warmups ++ working) ∧
      working.length = 3 ∧
      warmups.length = (match week with
        | .week1 => 2 | .week2 => 3 | .week3 => 3 | .week4 => 0) := by
  unfold generate_primary_sets
  rw [h]
  cases week <;> exact ⟨_, _, rfl, rfl, rfl⟩

/-- Witness for C3 at deadlift, week 2, training max 365. -/
theorem claim3_witness :
    ∃ warmups working,
      generate_primary_sets Lift.deadlift Week.week2
          (fun l => if l = Lift.deadlift then some 365 else none) =
        Except.ok (warmups ++ working) ∧
      working.length = 3 ∧ warmups.length = 3 :=
  claim3_primary_set_counts Lift.deadlift Week.week2 _ 365 rfl

/-- C4: for every lift with a present training max, the AMRAP marker `+`
ends exactly the last entry of `generate_primary_sets` in weeks 1-3 and no
entry in week 4. -/
theorem claim4_amrap_marks (lift : Lift) (week : Week) (tm : Lift → Option ℤ)
    (t : ℤ) (h : tm lift = some t) :
    ∃ l, generate_primary_sets lift week tm = Except.ok l ∧
      l.map endsWithPlus = (match week with
        | .week1 => [false, false, false, false, true]
        | .week2 => [false, false, false, false, false, true]
        | .week3 => [false, false, false, false, false, true]
        | .week4 => [false, false, false]) := by
  unfold generate_primary_sets
  rw [h]
  cases week <;>
    exact ⟨_, rfl, by
      simp [endsWithPlus_fmt_reps5, endsWithPlus_fmt_reps3, endsWithPlus_fmt_reps1]⟩

/-- Witness for C4 at overhead press, week 3, training max 170. -/
theorem claim4_witness :
    ∃ l, generate_primary_sets Lift.overheadPress Week.week3
        (fun l => if l = Lift.overheadPress then some 170 else none) =
      Except.ok l ∧
      l.map endsWithPlus = [false, false, false, false, false, true] :=
  claim4_amrap_marks Lift.overheadPress Week.week3 _ 170 rfl

/-- C6: for every lift (all fifteen variants) and week,
`generate_primary_sets` fails with `MissingTrainingMax` carrying that lift
exactly when the lift has no table entry, succeeds when the entry is
present, and never produces a `Config` error. -/
theorem claim6_missing_tm (lift : Lift) (week : Week) (tm : Lift → Option ℤ) :
    (tm lift = none →
      generate_primary_sets lift week tm =
        Except.error (WorkoutError.missingTrainingMax lift)) ∧
    (∀ t, tm lift = some t →
      ∃ l, generate_primary_sets lift week tm = Except.ok l) ∧
    (∀ msg, generate_primary_sets lift week tm ≠
      Except.error (WorkoutError.config msg)) := by
  cases htm : tm lift <;> simp [generate_primary_sets, htm]

/-- Witness for C6 at bench press on the empty table. -/
theorem claim6_witness :
    ((fun _ : Lift => (none : Option ℤ)) Lift.benchPress = none →
      generate_primary_sets Lift.benchPress Week.week1 (fun _ => none) =
        Except.error (WorkoutError.missingTrainingMax Lift.benchPress)) ∧
    (∀ t, (fun _ : Lift => (none : Option ℤ)) Lift.benchPress = some t →
      ∃ l, generate_primary_sets Lift.benchPress Week.week1 (fun _ => none) =
        Except.ok l) ∧
    (∀ msg, generate_primary_sets Lift.benchPress Week.week1 (fun _ => none) ≠
      Except.error (WorkoutError.config msg)) :=
  claim6_missing_tm Lift.benchPress Week.week1 (fun _ => none)

/-- The big-assistance percentage scheme of the spec's §4.4 table, keyed by
(assistance lift, week): (fraction, reps) for each of the three sets. -/
def bigScheme : Lift → Week → List (ℚ × ℤ)
  | .powerClean, .week4 => [(toF32 0.5, 3), (toF32 0.6, 3), (toF32 0.7, 3)]
  | .powerClean, _ => [(toF32 0.65, 3), (toF32 0.75, 3), (toF32 0.85, 3)]
  | _, .week1 => [(toF32 0.5, 10), (toF32 0.6, 10), (toF32 0.7, 10)]
  | _, .week2 => [(toF32 0.6, 8), (toF32 0.7, 8), (toF32 0.8, 6)]
  | _, .week3 => [(toF32 0.65, 5), (toF32 0.75, 5), (toF32 0.85, 5)]
  | _, .week4 => [(toF32 0.4, 5), (toF32 0.5, 5), (toF32 0.6, 5)]

theorem exceptBind_ok {ε α β : Type} (a : α) (f : α → Except ε β) :
    (Except.ok a >>= f) = f a := rfl

theorem exceptBind_error {ε α β : Type} (e : ε) (f : α → Except ε β) :
    ((Except.error e : Except ε α) >>= f) = Except.error e := rfl

theorem exceptMap_ok {ε α β : Type} (g : α → β) (a : α) :
    (g <$> (Except.ok a : Except ε α)) = Except.ok (g a) := rfl

theorem exceptMap_error {ε α β : Type} (g : α → β) (e : ε) :
    (g <$> (Except.error e : Except ε α)) = Except.error e := rfl

theorem exceptPure {ε α : Type} (a : α) :
    (pure a : Except ε α) = Except.ok a := rfl

/-- C2 counterexample: with a table holding only power clean (205) — so the
primary lift squat has no entry — assistance generation for squat does not
fail, contradicting the claim that a missing entry for the primary lift
itself yields `MissingTrainingMax`. -/
theorem claim2_counterexample :
    (fun l => if l = Lift.powerClean then some (205 : ℤ) else none) Lift.squat
        = none ∧
    generate_assistance_sets Lift.squat Week.week1
        (fun l => if l = Lift.powerClean then some (205 : ℤ) else none)
        coinStep [] =
      Except.ok ["power clean 133 x3", "power clean 154 x3",
        "power clean 174 x3", "RDLs, up to 225, 3x10", "pull-ups, 2x10"] := by
  constructor
  · rfl
  · with_unfolding_all rfl

/-- C2 (amended): for every primary lift and week, assistance generation
fails with `MissingTrainingMax` carrying the mapped big-assistance lift
whenever that assistance lift lacks a table entry; the primary lift's own
entry is never consulted. -/
theorem claim2_amended {S : Type} (p a : Lift) (week : Week)
    (tm : Lift → Option ℤ) (step : S → Bool × S) (rng : S)
    (hp : big_assistance_lift p = some a) (h : tm a = none) :
    generate_assistance_sets p week tm step rng =
      Except.error (WorkoutError.missingTrainingMax a) := by
  cases p <;> simp only [big_assistance_lift] at hp <;>
    first
      | exact Option.noConfusion hp
      | (injection hp with hpa; subst hpa;
         cases week <;>
           simp [generate_assistance_sets, big_assistance_lift, h,
             exceptBind_ok, exceptBind_error, exceptMap_ok, exceptMap_error,
             exceptPure])

/-- Witness for C2 (amended): overhead press in week 3 with a table lacking
close grip bench press. -/
theorem claim2_amended_witness :
    generate_assistance_sets Lift.overheadPress Week.week3
        (fun l => if l = Lift.overheadPress then some (170 : ℤ) else none)
        coinStep [] =
      Except.error (WorkoutError.missingTrainingMax Lift.closeGripBenchPress) :=
  claim2_amended _ _ _ _ _ _ rfl rfl

/-- C5: for every supported primary lift and week, a successful assistance
generation starts with the three sets of the mapped big-assistance lift
(squat→power clean, deadlift→front squat, bench press→incline press,
overhead press→close grip bench press), each weight scaled from the
training max stored for the assistance lift itself. -/
theorem claim5_big_assistance {S : Type} (p a : Lift) (week : Week)
    (tm : Lift → Option ℤ) (step : S → Bool × S) (rng : S) (t : ℤ)
    (hp : big_assistance_lift p = some a) (h : tm a = some t) :
    ∃ rest, generate_assistance_sets p week tm step rng =
      Except.ok ((bigScheme a week).map
        (fun pr => SetGroup.fmt ⟨a, scale t pr.1, 1, pr.2, false⟩) ++ rest) := by
  cases p <;> simp only [big_assistance_lift] at hp
  case squat =>
    injection hp with hpa; subst hpa
    refine ⟨["RDLs, up to 225, 3x10",
      if (step rng).1 = true then "chin-ups, 2x10" else "pull-ups, 2x10"], ?_⟩
    cases week <;>
      simp [generate_assistance_sets, big_assistance_lift, bigScheme, h,
        exceptBind_ok, exceptBind_error, exceptMap_ok, exceptMap_error,
        exceptPure]
  case deadlift =>
    injection hp with hpa; subst hpa
    refine ⟨["overhead squat, 3x10"], ?_⟩
    cases week <;>
      simp [generate_assistance_sets, big_assistance_lift, bigScheme, h,
        exceptBind_ok, exceptBind_error, exceptMap_ok, exceptMap_error,
        exceptPure]
  case benchPress =>
    injection hp with hpa; subst hpa
    refine ⟨[if (step rng).1 = true then "chin-ups, 3x10"
      else "pull-ups, 3x10"], ?_⟩
    cases week <;>
      simp [generate_assistance_sets, big_assistance_lift, bigScheme, h,
        exceptBind_ok, exceptBind_error, exceptMap_ok, exceptMap_error,
        exceptPure]
  case overheadPress =>
    injection hp with hpa; subst hpa
    refine ⟨[if (step rng).1 = true then "barbell 21s x3"
      else "Kroc row, 3x20"], ?_⟩
    cases week <;>
      simp [generate_assistance_sets, big_assistance_lift, bigScheme, h,
        exceptBind_ok, exceptBind_error, exceptMap_ok, exceptMap_error,
        exceptPure]
  all_goals exact Option.noConfusion hp

/-- Witness for C5: deadlift, week 1, with front squat trained at 215. -/
theorem claim5_witness :
    ∃ rest, generate_assistance_sets Lift.deadlift Week.week1
        (fun l => if l = Lift.frontSquat then some (215 : ℤ) else none)
        coinStep [] =
      Except.ok ((bigScheme Lift.frontSquat Week.week1).map
        (fun pr =>
          SetGroup.fmt ⟨Lift.frontSquat, scale 215 pr.1, 1, pr.2, false⟩)
        ++ rest) :=
  claim5_big_assistance _ _ _ _ _ _ 215 rfl rfl

/-- C7: assistance generation is deterministic in the random source — the
source is an explicit argument, so identical seeds (identical stream
states) with identical inputs give identical output. -/
theorem claim7_deterministic {S : Type} (p : Lift) (week : Week)
    (tm : Lift → Option ℤ) (step : S → Bool × S) (rng1 rng2 : S)
    (h : rng1 = rng2) :
    generate_assistance_sets p week tm step rng1 =
      generate_assistance_sets p week tm step rng2 := by rw [h]

/-- Witness for C7 at bench press, week 2, equal concrete streams. -/
theorem claim7_witness :
    generate_assistance_sets Lift.benchPress Week.week2
        (fun l => if l = Lift.inclinePress then some (215 : ℤ) else none)
        coinStep [true] =
      generate_assistance_sets Lift.benchPress Week.week2
        (fun l => if l = Lift.inclinePress then some (215 : ℤ) else none)
        coinStep [true] :=
  claim7_deterministic _ _ _ _ _ _ rfl

/-- C8: for every week, table and random source, assistance generation for
a lift that is not one of the four primary lifts returns a `Config` error
carrying a human-readable message, never `Ok`. -/
theorem claim8_unsupported_primary {S : Type} (p : Lift) (week : Week)
    (tm : Lift → Option ℤ) (step : S → Bool × S) (rng : S)
    (h1 : p ≠ Lift.squat) (h2 : p ≠ Lift.benchPress)
    (h3 : p ≠ Lift.deadlift) (h4 : p ≠ Lift.overheadPress) :
    generate_assistance_sets p week tm step rng =
      Except.error
        (WorkoutError.config ("Unsupported primary lift " ++ liftName p)) := by
  cases p
  case squat => exact absurd rfl h1
  case benchPress => exact absurd rfl h2
  case deadlift => exact absurd rfl h3
  case overheadPress => exact absurd rfl h4
  all_goals rfl

/-- Witness for C8 at front squat. -/
theorem claim8_witness :
    generate_assistance_sets Lift.frontSquat Week.week1
        (fun _ => some (215 : ℤ)) coinStep [] =
      Except.error
        (WorkoutError.config
          ("Unsupported primary lift " ++ liftName Lift.frontSquat)) :=
  claim8_unsupported_primary _ _ _ _ _
    (by simp) (by simp) (by simp) (by simp)

/-- C9 counterexample: for the (negative) training max -100 and the exactly
representable fractions 1/4 ≤ 1/2, scaling is antitone, refuting
monotonicity over all training maxes. -/
theorem claim9_counterexample :
    (1/4 : ℚ) ≤ (1/2 : ℚ) ∧
    scale (-100) ((1/2 : ℚ)) < scale (-100) ((1/4 : ℚ)) :=
  ⟨of_decide_eq_true (by with_unfolding_all rfl),
    of_decide_eq_true (by with_unfolding_all rfl)⟩

/-- C9 (amended): for every nonnegative training max and fractions
`f1 ≤ f2`, `scale w f1 ≤ scale w f2` — weight scaling is monotone in the
fraction. -/
theorem claim9_scale_monotone (w : ℤ) (f1 f2 : ℚ) (hw : 0 ≤ w)
    (h : f1 ≤ f2) : scale w f1 ≤ scale w f2 :=
  scale_mono hw h

/-- Witness for C9 (amended) at 100, f32 fractions 0.4 ≤ 0.5. -/
theorem claim9_witness : scale 100 (toF32 0.4) ≤ scale 100 (toF32 0.5) :=
  claim9_scale_monotone 100 (toF32 0.4) (toF32 0.5) (by decide)
    (of_decide_eq_true (by with_unfolding_all rfl))

/-- C10 counterexample: at training max 85 and the binary32 value of 0.7
(11744051/2^24, a fraction the program itself uses in week 2), the code
yields 60 while round-half-away-from-zero of the exact product
85 × (11744051/2^24) = 59.49999989… is 59: `scale` is not
`round(trainingMax * fraction)`. -/
theorem claim10_counterexample :
    toF32 (0.7 : ℚ) = (11744051 : ℚ)/16777216 ∧
    scale 85 (toF32 (0.7 : ℚ)) = 60 ∧
    rha ((85 : ℚ) * toF32 (0.7 : ℚ)) = 59 :=
  ⟨by with_unfolding_all rfl, by with_unfolding_all rfl,
    by with_unfolding_all rfl⟩

/-- C10 (amended): `scale` computes round-half-away-from-zero of the
binary32-rounded product (so it can differ from `round(tm * fraction)` by
one when the f32 product rounding crosses a half-integer); at the
documented boundaries it agrees with the claim: scale(135, 0.425) = 57 and
scale(100, 0.425) = 43, matching round-half-away of the exact products. -/
theorem claim10_boundaries :
    scale 135 (toF32 (0.425 : ℚ)) = 57 ∧
    scale 100 (toF32 (0.425 : ℚ)) = 43 ∧
    rha ((135 : ℚ) * toF32 (0.425 : ℚ)) = 57 ∧
    rha ((100 : ℚ) * toF32 (0.425 : ℚ)) = 43 :=
  ⟨by with_unfolding_all rfl, by with_unfolding_all rfl,
    by with_unfolding_all rfl, by with_unfolding_all rfl⟩

end FiveThreeOne
